import Mathlib

/-!
Shallow embedding of the core of the `250924-yunqi-test` scorekeeping app:
the multi-player Elo rating engine (`calculateMultiPlayerElo`) and the
match-result validator (`validateMatchResults`) from `src/lib/elo.ts`
(source file `part_000`), together with proofs settling the frozen claims.

JavaScript `number` arithmetic is idealised as exact real arithmetic (ℝ);
`Math.round` is embedded as `⌊x + 1/2⌋` (round half toward +∞), which is
the JS rounding rule. String normalisation (`trim()` / `toLowerCase()`) is
embedded by the structurally recursive `jsTrim` / `jsToLower` below.
-/

namespace Yunqi

/-- Engine input element: `{ playerId: string; position: number; currentRating: number }`. -/
structure MatchParticipant where
  playerId : String
  position : ℝ
  currentRating : ℝ

/-- `EloCalculationConfig` from `src/types/index.ts` (`defaultRating` is unused by the engine). -/
structure EloCalculationConfig where
  kFactor : ℝ
  defaultRating : ℝ

/-- `EloCalculationResult` from `src/types/index.ts`. All fields are JS numbers;
`newRating` and `ratingChange` are integer-valued only on the rounding branch. -/
structure EloCalculationResult where
  playerId : String
  previousRating : ℝ
  newRating : ℝ
  ratingChange : ℝ

/-- JS `Math.round x = ⌊x + 0.5⌋` (rounds half toward +∞). -/
noncomputable def mathRound (x : ℝ) : ℝ := (⌊x + 1/2⌋ : ℤ)

/-- `calculateExpectedScore`: `1 / (1 + Math.pow(10, (ratingB - ratingA) / 400))`. -/
noncomputable def calculateExpectedScore (ratingA ratingB : ℝ) : ℝ :=
  1 / (1 + (10 : ℝ) ^ ((ratingB - ratingA) / 400))

/-- `calculateActualScore`: 1 if the player's position number is smaller,
0.5 on equal positions, 0 otherwise. -/
noncomputable def calculateActualScore (playerPosition opponentPosition : ℝ) : ℝ :=
  if playerPosition < opponentPosition then 1
  else if playerPosition = opponentPosition then 1/2
  else 0

/-- The inner loop of `calculateMultiPlayerElo` skips exactly the entries whose
`playerId` equals the current player's (`if (player.playerId === opponent.playerId) continue`). -/
def eloOpponents (playerResults : List MatchParticipant) (player : MatchParticipant) :
    List MatchParticipant :=
  playerResults.filter (fun o => player.playerId != o.playerId)

/-- Running sum `totalExpectedScore` accumulated over the opponent loop. -/
noncomputable def totalExpectedScore (playerResults : List MatchParticipant)
    (player : MatchParticipant) : ℝ :=
  ((eloOpponents playerResults player).map
    (fun o => calculateExpectedScore player.currentRating o.currentRating)).sum

/-- Running sum `totalActualScore` accumulated over the opponent loop. -/
noncomputable def totalActualScore (playerResults : List MatchParticipant)
    (player : MatchParticipant) : ℝ :=
  ((eloOpponents playerResults player).map
    (fun o => calculateActualScore player.position o.position)).sum

/-- `totalOpponents` counter. -/
def totalOpponents (playerResults : List MatchParticipant) (player : MatchParticipant) : ℕ :=
  (eloOpponents playerResults player).length

/-- The pre-rounding rating change `config.kFactor * (avgActualScore - avgExpectedScore)`. -/
noncomputable def eloRawChange (playerResults : List MatchParticipant)
    (config : EloCalculationConfig) (player : MatchParticipant) : ℝ :=
  config.kFactor *
    (totalActualScore playerResults player / totalOpponents playerResults player -
     totalExpectedScore playerResults player / totalOpponents playerResults player)

/-- `calculateMultiPlayerElo`: one result per input participant, in input order.
A player with no opponents is returned unchanged; otherwise
`newRating = max(0, Math.round(currentRating + ratingChange))` and the stored
`ratingChange` is `Math.round` of the raw change. -/
noncomputable def calculateMultiPlayerElo (playerResults : List MatchParticipant)
    (config : EloCalculationConfig) : List EloCalculationResult :=
  playerResults.map (fun player =>
    if totalOpponents playerResults player = 0 then
      { playerId := player.playerId
        previousRating := player.currentRating
        newRating := player.currentRating
        ratingChange := 0 }
    else
      { playerId := player.playerId
        previousRating := player.currentRating
        newRating := max 0 (mathRound (player.currentRating +
          eloRawChange playerResults config player))
        ratingChange := mathRound (eloRawChange playerResults config player) })

/-! ### Validator -/

/-- Validator input element: `{ playerName: string; position: number }`.
Positions submitted through the form are integers; we embed them as `ℤ`. -/
structure VEntry where
  playerName : String
  position : ℤ

/-- Validator output `{ isValid: boolean; errors: string[] }`. -/
structure ValidationResult where
  isValid : Bool
  errors : List String
  deriving Repr, DecidableEq

def msgMinPlayers : String := "至少需要2名玩家参与比赛"
def msgDupName : String := "玩家名称不能重复"
def msgEmptyName : String := "玩家名称不能为空"
def msgRange : String := "排名必须在1到参赛人数之间"
def msgStartOne : String := "排名必须从1开始"
def msgContig : String := "排名必须连续，不能跳跃"

/-- JS `String.prototype.trim()`: strip leading and trailing whitespace.
Embedded structurally over the character list (Lean's builtin `String.trim`
is defined by well-founded recursion on byte positions and does not reduce
in the kernel). -/
def jsTrim (s : String) : String :=
  ⟨((s.data.dropWhile Char.isWhitespace).reverse.dropWhile Char.isWhitespace).reverse⟩

/-- JS `String.prototype.toLowerCase()` on the ASCII fragment: lower-case
every character. -/
def jsToLower (s : String) : String := ⟨s.data.map Char.toLower⟩

/-- The contiguity loop `for (pos = 1; pos <= maxPosition; pos++)`, returning
whether the generic non-contiguity error was pushed. `fuel` is the number of
remaining loop iterations (`maxPosition` many, starting from `pos = 1`); the
loop breaks after the first gap. -/
def contigViolation (positions : List ℤ) (pos expectedNext : ℤ) : ℕ → Bool
  | 0 => false
  | fuel + 1 =>
    let count := positions.count pos
    if count > 0 then
      if pos ≠ expectedNext then true
      else contigViolation positions (pos + 1) (pos + count) fuel
    else contigViolation positions (pos + 1) expectedNext fuel

/-- Check 1: fewer than 2 entries. -/
def chkMinPlayers (rs : List VEntry) : Bool := rs.length < 2

/-- Normalised names: `p.playerName.trim().toLowerCase()`. -/
def normNames (rs : List VEntry) : List String :=
  rs.map (fun p => jsToLower (jsTrim p.playerName))

/-- Check 2: duplicate normalised names (`playerNames.length !== uniqueNames.size`,
i.e. the normalised name list is not duplicate-free). -/
def chkDupName (rs : List VEntry) : Bool := !(normNames rs).Nodup

/-- Check 3: some entry's trimmed name is empty (`!p.playerName.trim()`). -/
def chkEmptyName (rs : List VEntry) : Bool :=
  (rs.filter (fun p => jsTrim p.playerName == "")).length > 0

/-- Check 4: some position is outside `1 ≤ pos ≤ N`. -/
def chkRange (rs : List VEntry) : Bool :=
  !((rs.map (·.position)).all (fun pos => 1 ≤ pos && pos ≤ (rs.length : ℤ)))

/-- Check 5: `Math.min(...positions) !== 1` (the JS min of an empty list is
`Infinity`, embedded as `none`). -/
def chkStartOne (rs : List VEntry) : Bool := (rs.map (·.position)).min? != some 1

/-- Check 6: the tie-aware contiguity walk finds a gap. `Math.max` of an empty
list is `-Infinity` (`none`), in which case the loop body never runs. -/
def chkContig (rs : List VEntry) : Bool :=
  let positions := rs.map (·.position)
  let fuel := match positions.max? with
    | none => 0
    | some m => m.toNat
  contigViolation positions 1 1 fuel

/-- `validateMatchResults`: runs all six checks, accumulating one error string
per failed check, in source order; `isValid` is `errors.length === 0`. -/
def validateMatchResults (rs : List VEntry) : ValidationResult :=
  let errors :=
    (if chkMinPlayers rs then [msgMinPlayers] else []) ++
    (if chkDupName rs then [msgDupName] else []) ++
    (if chkEmptyName rs then [msgEmptyName] else []) ++
    (if chkRange rs then [msgRange] else []) ++
    (if chkStartOne rs then [msgStartOne] else []) ++
    (if chkContig rs then [msgContig] else [])
  { isValid := errors.isEmpty, errors := errors }

/-! ### Basic lemmas about the embedded primitives -/

lemma mathRound_int_add (m : ℤ) (x : ℝ) : mathRound ((m : ℝ) + x) = (m : ℝ) + mathRound x := by
  unfold mathRound
  rw [add_assoc, Int.floor_int_add]
  push_cast
  ring

lemma mathRound_zero : mathRound 0 = 0 := by
  unfold mathRound
  norm_num

lemma abs_mathRound_add_neg (x : ℝ) : |mathRound x + mathRound (-x)| ≤ 1 := by
  unfold mathRound
  have h1 : ((⌊x + 1/2⌋ : ℤ) : ℝ) ≤ x + 1/2 := Int.floor_le _
  have h2 : x + 1/2 < (⌊x + 1/2⌋ : ℤ) + 1 := Int.lt_floor_add_one _
  have h3 : ((⌊-x + 1/2⌋ : ℤ) : ℝ) ≤ -x + 1/2 := Int.floor_le _
  have h4 : -x + 1/2 < (⌊-x + 1/2⌋ : ℤ) + 1 := Int.lt_floor_add_one _
  rw [abs_le]
  constructor <;> linarith

lemma actualScore_swap_add (a b : ℝ) :
    calculateActualScore a b + calculateActualScore b a = 1 := by
  unfold calculateActualScore
  rcases lt_trichotomy a b with h | h | h
  · rw [if_pos h, if_neg (by linarith : ¬ b < a), if_neg (fun he => by simp [he] at h)]
    norm_num
  · rw [if_neg (by linarith : ¬ a < b), if_pos h, if_neg (by linarith : ¬ b < a),
      if_pos h.symm]
    norm_num
  · rw [if_neg (by linarith : ¬ a < b), if_neg (fun he => by simp [he] at h), if_pos h]
    norm_num

lemma actualScore_self (a b : ℝ) (h : a = b) : calculateActualScore a b = 1/2 := by
  subst h
  unfold calculateActualScore
  simp

lemma expectedScore_self (a b : ℝ) (h : a = b) : calculateExpectedScore a b = 1/2 := by
  subst h
  unfold calculateExpectedScore
  rw [sub_self, zero_div, Real.rpow_zero]
  norm_num

lemma expectedScore_swap_add (a b : ℝ) :
    calculateExpectedScore a b + calculateExpectedScore b a = 1 := by
  unfold calculateExpectedScore
  have hneg : (a - b) / 400 = -((b - a) / 400) := by ring
  rw [hneg, Real.rpow_neg (by norm_num : (0:ℝ) ≤ 10)]
  have ht : (0:ℝ) < (10:ℝ) ^ ((b - a) / 400) := Real.rpow_pos_of_pos (by norm_num) _
  have h1 : (1:ℝ) + (10:ℝ) ^ ((b - a) / 400) ≠ 0 := by positivity
  have h2 : (1:ℝ) + ((10:ℝ) ^ ((b - a) / 400))⁻¹ ≠ 0 := by positivity
  field_simp
  ring

/-! ### Lemmas about the opponent list -/

lemma eloOpponents_eq_of_head (x : MatchParticipant) (xs : List MatchParticipant)
    (h : x.playerId ∉ xs.map MatchParticipant.playerId) :
    eloOpponents (x :: xs) x = xs := by
  unfold eloOpponents
  rw [List.filter_cons]
  simp only [bne_self_eq_false, if_false, Bool.false_eq_true]
  exact List.filter_eq_self.mpr fun o ho => by
    rw [bne_iff_ne]
    intro he
    exact h (he ▸ List.mem_map_of_mem _ ho)

lemma eloOpponents_cons_of_ne (x p : MatchParticipant) (xs : List MatchParticipant)
    (h : p.playerId ≠ x.playerId) :
    eloOpponents (x :: xs) p = x :: eloOpponents xs p := by
  unfold eloOpponents
  rw [List.filter_cons, if_pos (by rwa [bne_iff_ne])]

lemma length_eloOpponents (rs : List MatchParticipant) (p : MatchParticipant)
    (hnd : (rs.map MatchParticipant.playerId).Nodup) (hp : p ∈ rs) :
    (eloOpponents rs p).length + 1 = rs.length := by
  induction rs with
  | nil => cases hp
  | cons x xs ih =>
    rw [List.map_cons, List.nodup_cons] at hnd
    rcases List.mem_cons.mp hp with rfl | hmem
    · rw [eloOpponents_eq_of_head _ _ hnd.1]
      simp
    · have hne : p.playerId ≠ x.playerId := fun he =>
        hnd.1 (he ▸ List.mem_map_of_mem _ hmem)
      rw [eloOpponents_cons_of_ne x p xs hne]
      have := ih hnd.2 hmem
      simp only [List.length_cons]
      omega

lemma totalOpponents_ne_zero (rs : List MatchParticipant) (p : MatchParticipant)
    (hnd : (rs.map MatchParticipant.playerId).Nodup) (hlen : 2 ≤ rs.length)
    (hp : p ∈ rs) : totalOpponents rs p ≠ 0 := by
  unfold totalOpponents
  have := length_eloOpponents rs p hnd hp
  omega

/-! ### Sum helpers -/

lemma sum_map_add_distrib {α : Type} (l : List α) (f g : α → ℝ) :
    (l.map fun a => f a + g a).sum = (l.map f).sum + (l.map g).sum := by
  induction l with
  | nil => simp
  | cons x xs ih =>
    simp only [List.map_cons, List.sum_cons, ih]
    ring

lemma sum_map_const {α : Type} (l : List α) (c : ℝ) :
    (l.map fun _ => c).sum = l.length * c := by
  induction l with
  | nil => simp
  | cons x xs ih =>
    simp only [List.map_cons, List.sum_cons, ih, List.length_cons]
    push_cast
    ring

/-- Pairing identity: because each ordered pair of distinct participants
contributes actual scores summing to 1, the total of all actual scores over a
match with pairwise-distinct playerIds is n(n−1)/2. -/
lemma sum_totalActual (rs : List MatchParticipant)
    (hnd : (rs.map MatchParticipant.playerId).Nodup) :
    (rs.map fun p => totalActualScore rs p).sum =
      (rs.length : ℝ) * ((rs.length : ℝ) - 1) / 2 := by
  induction rs with
  | nil => simp
  | cons x xs ih =>
    rw [List.map_cons, List.nodup_cons] at hnd
    have hstep : ∀ p ∈ xs, totalActualScore (x :: xs) p =
        calculateActualScore p.position x.position + totalActualScore xs p := by
      intro p hp
      have hne : p.playerId ≠ x.playerId := fun he =>
        hnd.1 (he ▸ List.mem_map_of_mem _ hp)
      unfold totalActualScore
      rw [eloOpponents_cons_of_ne x p xs hne]
      simp
    have hhead : totalActualScore (x :: xs) x =
        (xs.map fun o => calculateActualScore x.position o.position).sum := by
      unfold totalActualScore
      rw [eloOpponents_eq_of_head x xs hnd.1]
    rw [List.map_cons, List.sum_cons, hhead, List.map_congr_left hstep,
      sum_map_add_distrib, ih hnd.2]
    have hpair : (xs.map fun o => calculateActualScore x.position o.position).sum +
        (xs.map fun p => calculateActualScore p.position x.position).sum =
        (xs.length : ℝ) := by
      rw [← sum_map_add_distrib,
        List.map_congr_left (fun o _ => actualScore_swap_add x.position o.position),
        sum_map_const]
      ring
    rw [List.length_cons]
    push_cast
    nlinarith [hpair]

lemma mem_of_mem_eloOpponents {rs : List MatchParticipant} {p o : MatchParticipant}
    (ho : o ∈ eloOpponents rs p) : o ∈ rs := by
  unfold eloOpponents at ho
  exact List.mem_of_mem_filter ho

lemma actualScore_of_lt {a b : ℝ} (h : a < b) : calculateActualScore a b = 1 := by
  unfold calculateActualScore
  rw [if_pos h]

lemma actualScore_of_gt {a b : ℝ} (h : b < a) : calculateActualScore a b = 0 := by
  unfold calculateActualScore
  rw [if_neg (by linarith), if_neg (by rintro rfl; exact lt_irrefl _ h)]

lemma mathRound_eq (x : ℝ) (m : ℤ) (h1 : (m : ℝ) ≤ x + 1/2) (h2 : x + 1/2 < (m : ℝ) + 1) :
    mathRound x = (m : ℝ) := by
  unfold mathRound
  rw [Int.floor_eq_iff.mpr ⟨h1, by exact_mod_cast h2⟩]

lemma totalExpectedScore_of_equal (rs : List MatchParticipant) (p : MatchParticipant)
    (hp : p ∈ rs)
    (hrat : ∀ q ∈ rs, ∀ r ∈ rs, q.currentRating = r.currentRating) :
    totalExpectedScore rs p = (totalOpponents rs p : ℝ) * (1/2) := by
  unfold totalExpectedScore
  rw [List.map_congr_left (fun o ho =>
    expectedScore_self _ _ (hrat p hp o (mem_of_mem_eloOpponents ho)))]
  exact sum_map_const _ _

lemma totalActualScore_of_equal_pos (rs : List MatchParticipant) (p : MatchParticipant)
    (hp : p ∈ rs)
    (hpos : ∀ q ∈ rs, ∀ r ∈ rs, q.position = r.position) :
    totalActualScore rs p = (totalOpponents rs p : ℝ) * (1/2) := by
  unfold totalActualScore
  rw [List.map_congr_left (fun o ho =>
    actualScore_self _ _ (hpos p hp o (mem_of_mem_eloOpponents ho)))]
  exact sum_map_const _ _

/-! ### Two-participant evaluation lemmas -/

lemma eloOpponents_pair_left (p q : MatchParticipant) (h : p.playerId ≠ q.playerId) :
    eloOpponents [p, q] p = [q] := by
  unfold eloOpponents
  rw [List.filter_cons, List.filter_cons, List.filter_nil]
  simp [h]

lemma eloOpponents_pair_right (p q : MatchParticipant) (h : p.playerId ≠ q.playerId) :
    eloOpponents [p, q] q = [p] := by
  unfold eloOpponents
  rw [List.filter_cons, List.filter_cons, List.filter_nil]
  simp [Ne.symm h]

lemma eloRawChange_pair_left (p q : MatchParticipant) (cfg : EloCalculationConfig)
    (h : p.playerId ≠ q.playerId) :
    eloRawChange [p, q] cfg p = cfg.kFactor *
      (calculateActualScore p.position q.position -
       calculateExpectedScore p.currentRating q.currentRating) := by
  unfold eloRawChange totalActualScore totalExpectedScore totalOpponents
  rw [eloOpponents_pair_left p q h]
  simp

lemma eloRawChange_pair_right (p q : MatchParticipant) (cfg : EloCalculationConfig)
    (h : p.playerId ≠ q.playerId) :
    eloRawChange [p, q] cfg q = cfg.kFactor *
      (calculateActualScore q.position p.position -
       calculateExpectedScore q.currentRating p.currentRating) := by
  unfold eloRawChange totalActualScore totalExpectedScore totalOpponents
  rw [eloOpponents_pair_right p q h]
  simp

lemma calcElo_pair (p q : MatchParticipant) (cfg : EloCalculationConfig)
    (h : p.playerId ≠ q.playerId) :
    calculateMultiPlayerElo [p, q] cfg =
      [⟨p.playerId, p.currentRating,
        max 0 (mathRound (p.currentRating + eloRawChange [p, q] cfg p)),
        mathRound (eloRawChange [p, q] cfg p)⟩,
       ⟨q.playerId, q.currentRating,
        max 0 (mathRound (q.currentRating + eloRawChange [p, q] cfg q)),
        mathRound (eloRawChange [p, q] cfg q)⟩] := by
  have ho1 : totalOpponents [p, q] p = 1 := by
    unfold totalOpponents
    rw [eloOpponents_pair_left p q h]
    rfl
  have ho2 : totalOpponents [p, q] q = 1 := by
    unfold totalOpponents
    rw [eloOpponents_pair_right p q h]
    rfl
  unfold calculateMultiPlayerElo
  simp [ho1, ho2]

/-! ### Claim theorems (first batch) -/

/-- C6: on a single-element participant list, for every kFactor, the engine
returns exactly one record, with ratingChange 0 and newRating equal to the
participant's currentRating unchanged (the no-opponent branch). -/
theorem claim_C6_single (p : MatchParticipant) (cfg : EloCalculationConfig) :
    calculateMultiPlayerElo [p] cfg =
      [{ playerId := p.playerId, previousRating := p.currentRating,
         newRating := p.currentRating, ratingChange := 0 }] := by
  unfold calculateMultiPlayerElo totalOpponents eloOpponents
  simp

/-- C7: the engine returns one record per input participant, in input order:
the output has the same length, the i-th playerId is the i-th input playerId,
and the i-th previousRating is the i-th input currentRating. -/
theorem claim_C7_shape (rs : List MatchParticipant) (cfg : EloCalculationConfig) :
    (calculateMultiPlayerElo rs cfg).length = rs.length ∧
    (calculateMultiPlayerElo rs cfg).map EloCalculationResult.playerId =
      rs.map MatchParticipant.playerId ∧
    (calculateMultiPlayerElo rs cfg).map EloCalculationResult.previousRating =
      rs.map MatchParticipant.currentRating := by
  unfold calculateMultiPlayerElo
  refine ⟨by simp, ?_, ?_⟩ <;>
  · rw [List.map_map]
    refine List.map_congr_left fun p _ => ?_
    simp only [Function.comp_apply]
    split <;> rfl

/-- C10: on the empty list, the validator reports exactly the
minimum-participants error and the ranks-must-start-from-1 error, and is
invalid; no other check fires (JS `Math.min()` is Infinity ≠ 1, and the
contiguity loop bound `Math.max()` is -Infinity so the loop never runs). -/
theorem claim_C10_empty :
    validateMatchResults [] = ⟨false, [msgMinPlayers, msgStartOne]⟩ := by decide

/-- C1 (amended): with at least two participants with pairwise-distinct
playerIds and integer currentRating values, every returned record satisfies
newRating = max(0, previousRating + ratingChange); the floor clamp at 0 means
the plain identity newRating = previousRating + ratingChange does not hold in
general. -/
theorem claim_C1_thm (rs : List MatchParticipant) (cfg : EloCalculationConfig)
    (hnd : (rs.map MatchParticipant.playerId).Nodup) (hlen : 2 ≤ rs.length)
    (hint : ∀ p ∈ rs, ∃ m : ℤ, p.currentRating = (m : ℝ)) :
    ∀ r ∈ calculateMultiPlayerElo rs cfg,
      r.newRating = max 0 (r.previousRating + r.ratingChange) := by
  intro r hr
  unfold calculateMultiPlayerElo at hr
  rw [List.mem_map] at hr
  obtain ⟨p, hp, rfl⟩ := hr
  rw [if_neg (totalOpponents_ne_zero rs p hnd hlen hp)]
  obtain ⟨m, hm⟩ := hint p hp
  show max 0 (mathRound (p.currentRating + eloRawChange rs cfg p)) =
    max 0 (p.currentRating + mathRound (eloRawChange rs cfg p))
  rw [hm, mathRound_int_add]

/-- C1 counterexample: two players at rating 0 with kFactor 32. The loser's
record has previousRating 0, ratingChange −16, but newRating 0 (clamped), so
newRating ≠ previousRating + ratingChange. -/
theorem claim_C1_cex :
    (calculateMultiPlayerElo [⟨"a", 1, 0⟩, ⟨"b", 2, 0⟩] ⟨32, 1000⟩).map
        (fun r => (r.previousRating, r.newRating, r.ratingChange)) =
      [((0:ℝ), (16:ℝ), (16:ℝ)), (0, 0, -16)] ∧ ((0:ℝ) ≠ 0 + (-16 : ℝ)) := by
  have h : ("a" : String) ≠ "b" := by decide
  have hab : (⟨"a", 1, 0⟩ : MatchParticipant).playerId ≠
      (⟨"b", 2, 0⟩ : MatchParticipant).playerId := h
  have hr1 : eloRawChange [⟨"a", 1, 0⟩, ⟨"b", 2, 0⟩] ⟨32, 1000⟩ ⟨"a", 1, 0⟩ = 16 := by
    rw [eloRawChange_pair_left _ _ _ hab]
    show (32:ℝ) * (calculateActualScore 1 2 - calculateExpectedScore 0 0) = 16
    rw [actualScore_of_lt (by norm_num), expectedScore_self 0 0 rfl]
    norm_num
  have hr2 : eloRawChange [⟨"a", 1, 0⟩, ⟨"b", 2, 0⟩] ⟨32, 1000⟩ ⟨"b", 2, 0⟩ = -16 := by
    rw [eloRawChange_pair_right _ _ _ hab]
    show (32:ℝ) * (calculateActualScore 2 1 - calculateExpectedScore 0 0) = -16
    rw [actualScore_of_gt (by norm_num), expectedScore_self 0 0 rfl]
    norm_num
  constructor
  · rw [calcElo_pair _ _ _ hab]
    simp only [List.map_cons, List.map_nil, hr1, hr2]
    have h16 : mathRound (16 : ℝ) = (16 : ℝ) := by
      have := mathRound_eq (16 : ℝ) 16 (by norm_num) (by norm_num)
      simpa using this
    have hm16 : mathRound (-16 : ℝ) = (-16 : ℝ) := by
      have := mathRound_eq (-16 : ℝ) (-16) (by norm_num) (by norm_num)
      simpa using this
    show [((0:ℝ), max 0 (mathRound ((0:ℝ) + 16)), mathRound (16:ℝ)),
          ((0:ℝ), max 0 (mathRound ((0:ℝ) + (-16))), mathRound (-16:ℝ))] =
      [((0:ℝ), (16:ℝ), (16:ℝ)), (0, 0, -16)]
    rw [show ((0:ℝ) + 16) = 16 by norm_num, show ((0:ℝ) + (-16)) = -16 by norm_num,
      h16, hm16]
    norm_num
  · norm_num

/-- C2 (amended): if every participant has the same position AND the same
currentRating, every returned ratingChange is 0. With equal positions but
unequal ratings the expected scores differ from 1/2 and the changes are
nonzero. -/
theorem claim_C2_thm (rs : List MatchParticipant) (cfg : EloCalculationConfig)
    (hnd : (rs.map MatchParticipant.playerId).Nodup)
    (hpos : ∀ q ∈ rs, ∀ r ∈ rs, q.position = r.position)
    (hrat : ∀ q ∈ rs, ∀ r ∈ rs, q.currentRating = r.currentRating) :
    ∀ r ∈ calculateMultiPlayerElo rs cfg, r.ratingChange = 0 := by
  intro r hr
  unfold calculateMultiPlayerElo at hr
  rw [List.mem_map] at hr
  obtain ⟨p, hp, rfl⟩ := hr
  by_cases h0 : totalOpponents rs p = 0
  · rw [if_pos h0]
  · rw [if_neg h0]
    show mathRound (eloRawChange rs cfg p) = 0
    have hraw : eloRawChange rs cfg p = 0 := by
      unfold eloRawChange
      rw [totalActualScore_of_equal_pos rs p hp hpos,
        totalExpectedScore_of_equal rs p hp hrat]
      ring
    rw [hraw, mathRound_zero]

/-- C2 counterexample: both players at position 1 (a tie) but ratings 800 and
0, kFactor 32: the returned rating changes are −16 and 16, not 0. -/
theorem claim_C2_cex :
    (calculateMultiPlayerElo [⟨"a", 1, 800⟩, ⟨"b", 1, 0⟩] ⟨32, 1000⟩).map
        EloCalculationResult.ratingChange = [(-16 : ℝ), 16] ∧ ((-16 : ℝ) ≠ 0) := by
  have hab : (⟨"a", 1, 800⟩ : MatchParticipant).playerId ≠
      (⟨"b", 1, 0⟩ : MatchParticipant).playerId := by decide
  have hE1 : calculateExpectedScore (800 : ℝ) 0 = 100/101 := by
    unfold calculateExpectedScore
    rw [show ((0:ℝ) - 800)/400 = ((-2 : ℤ) : ℝ) by norm_num, Real.rpow_intCast]
    norm_num
  have hE2 : calculateExpectedScore (0 : ℝ) 800 = 1/101 := by
    unfold calculateExpectedScore
    rw [show ((800:ℝ) - 0)/400 = ((2 : ℤ) : ℝ) by norm_num, Real.rpow_intCast]
    norm_num
  have hr1 : eloRawChange [⟨"a", 1, 800⟩, ⟨"b", 1, 0⟩] ⟨32, 1000⟩ ⟨"a", 1, 800⟩ =
      -1584/101 := by
    rw [eloRawChange_pair_left _ _ _ hab]
    show (32:ℝ) * (calculateActualScore 1 1 - calculateExpectedScore 800 0) = -1584/101
    rw [actualScore_self 1 1 rfl, hE1]
    norm_num
  have hr2 : eloRawChange [⟨"a", 1, 800⟩, ⟨"b", 1, 0⟩] ⟨32, 1000⟩ ⟨"b", 1, 0⟩ =
      1584/101 := by
    rw [eloRawChange_pair_right _ _ _ hab]
    show (32:ℝ) * (calculateActualScore 1 1 - calculateExpectedScore 0 800) = 1584/101
    rw [actualScore_self 1 1 rfl, hE2]
    norm_num
  constructor
  · rw [calcElo_pair _ _ _ hab]
    simp only [List.map_cons, List.map_nil, hr1, hr2]
    show [mathRound (-1584/101 : ℝ), mathRound (1584/101 : ℝ)] = [(-16 : ℝ), 16]
    rw [mathRound_eq (-1584/101 : ℝ) (-16) (by norm_num) (by norm_num),
      mathRound_eq (1584/101 : ℝ) 16 (by norm_num) (by norm_num)]
    norm_num
  · norm_num

/-- C4: for any 2-participant match with distinct playerIds, the pre-rounding
rating changes are exact negatives of each other, and hence the two returned
(rounded) ratingChange values sum to at most 1 in absolute value — equal in
magnitude and opposite in sign within rounding. -/
theorem claim_C4_thm (p q : MatchParticipant) (cfg : EloCalculationConfig)
    (h : p.playerId ≠ q.playerId) :
    eloRawChange [p, q] cfg q = -(eloRawChange [p, q] cfg p) ∧
    |(((calculateMultiPlayerElo [p, q] cfg).map EloCalculationResult.ratingChange).sum)|
      ≤ 1 := by
  have hrq : eloRawChange [p, q] cfg q = -(eloRawChange [p, q] cfg p) := by
    rw [eloRawChange_pair_left p q cfg h, eloRawChange_pair_right p q cfg h]
    have hS := actualScore_swap_add p.position q.position
    have hE := expectedScore_swap_add p.currentRating q.currentRating
    have h1 : calculateActualScore q.position p.position =
        1 - calculateActualScore p.position q.position := by linarith
    have h2 : calculateExpectedScore q.currentRating p.currentRating =
        1 - calculateExpectedScore p.currentRating q.currentRating := by linarith
    rw [h1, h2]
    ring
  refine ⟨hrq, ?_⟩
  rw [calcElo_pair p q cfg h]
  simp only [List.map_cons, List.map_nil, List.sum_cons, List.sum_nil, add_zero]
  rw [hrq]
  exact abs_mathRound_add_neg (eloRawChange [p, q] cfg p)

/-- C5 (amended): with at least two participants with pairwise-distinct
playerIds, every returned newRating is ≥ 0 (the clamp applies); a participant
with no opponents is passed through unchanged, so a singleton list with a
negative rating escapes the clamp. -/
theorem claim_C5_thm (rs : List MatchParticipant) (cfg : EloCalculationConfig)
    (hnd : (rs.map MatchParticipant.playerId).Nodup) (hlen : 2 ≤ rs.length) :
    ∀ r ∈ calculateMultiPlayerElo rs cfg, 0 ≤ r.newRating := by
  intro r hr
  unfold calculateMultiPlayerElo at hr
  rw [List.mem_map] at hr
  obtain ⟨p, hp, rfl⟩ := hr
  rw [if_neg (totalOpponents_ne_zero rs p hnd hlen hp)]
  show (0:ℝ) ≤ max 0 (mathRound (p.currentRating + eloRawChange rs cfg p))
  exact le_max_left _ _

/-- C5 counterexample: a single participant with currentRating −5 is returned
unchanged through the no-opponent branch, so its newRating is −5 < 0. -/
theorem claim_C5_cex :
    (calculateMultiPlayerElo [⟨"a", 1, -5⟩] ⟨32, 1000⟩).map
        EloCalculationResult.newRating = [(-5 : ℝ)] ∧ ¬ ((0:ℝ) ≤ -5) := by
  constructor
  · unfold calculateMultiPlayerElo totalOpponents eloOpponents
    simp
  · norm_num

lemma sum_map_mul_sub_const {α : Type} (l : List α) (c d : ℝ) (f : α → ℝ) :
    (l.map fun a => c * f a - d).sum = c * (l.map f).sum - l.length * d := by
  induction l with
  | nil => simp
  | cons x xs ih =>
    simp only [List.map_cons, List.sum_cons, ih, List.length_cons]
    push_cast
    ring

/-- C3 (amended): for at least two participants with pairwise-distinct
playerIds all starting at the same currentRating, the sum over participants of
the engine's pre-rounding rating changes kFactor·(avgActual − avgExpected) is
exactly 0. (The returned ratingChange values are rounded independently and
their sum can differ from 0.) -/
theorem claim_C3_thm (rs : List MatchParticipant) (cfg : EloCalculationConfig)
    (hnd : (rs.map MatchParticipant.playerId).Nodup) (hlen : 2 ≤ rs.length)
    (hrat : ∀ q ∈ rs, ∀ r ∈ rs, q.currentRating = r.currentRating) :
    (rs.map fun p => eloRawChange rs cfg p).sum = 0 := by
  have hn2 : (2:ℝ) ≤ (rs.length : ℝ) := by exact_mod_cast hlen
  have hne : ((rs.length : ℝ) - 1) ≠ 0 := by linarith
  have hstep : ∀ p ∈ rs, eloRawChange rs cfg p =
      cfg.kFactor / ((rs.length : ℝ) - 1) * totalActualScore rs p - cfg.kFactor / 2 := by
    intro p hp
    have hlop := length_eloOpponents rs p hnd hp
    have hop : ((totalOpponents rs p : ℕ) : ℝ) = (rs.length : ℝ) - 1 := by
      unfold totalOpponents
      rw [← hlop]
      push_cast
      ring
    unfold eloRawChange
    rw [totalExpectedScore_of_equal rs p hp hrat, hop]
    field_simp
    ring
  rw [List.map_congr_left hstep, sum_map_mul_sub_const, sum_totalActual rs hnd]
  field_simp
  ring

/-- C3 counterexample: three players all at rating 1500, positions 1, 2, 3,
kFactor 1. The raw changes are 1/2, 0, −1/2, which round (half toward +∞) to
1, 0, 0: the returned rating changes sum to 1, not 0. -/
theorem claim_C3_cex :
    (((calculateMultiPlayerElo
        [⟨"a", 1, 1500⟩, ⟨"b", 2, 1500⟩, ⟨"c", 3, 1500⟩] ⟨1, 1000⟩).map
      EloCalculationResult.ratingChange).sum = (1:ℝ)) ∧ ((1:ℝ) ≠ 0) := by
  have hab : ("a" : String) ≠ "b" := by decide
  have hac : ("a" : String) ≠ "c" := by decide
  have hbc : ("b" : String) ≠ "c" := by decide
  have hoA : eloOpponents [⟨"a", 1, 1500⟩, ⟨"b", 2, 1500⟩, ⟨"c", 3, 1500⟩]
      ⟨"a", 1, 1500⟩ = [⟨"b", 2, 1500⟩, ⟨"c", 3, 1500⟩] := by
    unfold eloOpponents
    rw [List.filter_cons, List.filter_cons, List.filter_cons, List.filter_nil]
    simp [hab, hac]
  have hoB : eloOpponents [⟨"a", 1, 1500⟩, ⟨"b", 2, 1500⟩, ⟨"c", 3, 1500⟩]
      ⟨"b", 2, 1500⟩ = [⟨"a", 1, 1500⟩, ⟨"c", 3, 1500⟩] := by
    unfold eloOpponents
    rw [List.filter_cons, List.filter_cons, List.filter_cons, List.filter_nil]
    simp [Ne.symm hab, hbc]
  have hoC : eloOpponents [⟨"a", 1, 1500⟩, ⟨"b", 2, 1500⟩, ⟨"c", 3, 1500⟩]
      ⟨"c", 3, 1500⟩ = [⟨"a", 1, 1500⟩, ⟨"b", 2, 1500⟩] := by
    unfold eloOpponents
    rw [List.filter_cons, List.filter_cons, List.filter_cons, List.filter_nil]
    simp [Ne.symm hac, Ne.symm hbc]
  have hE : calculateExpectedScore (1500:ℝ) 1500 = 1/2 := expectedScore_self _ _ rfl
  have hrA : eloRawChange [⟨"a", 1, 1500⟩, ⟨"b", 2, 1500⟩, ⟨"c", 3, 1500⟩]
      ⟨1, 1000⟩ ⟨"a", 1, 1500⟩ = 1/2 := by
    unfold eloRawChange totalActualScore totalExpectedScore totalOpponents
    rw [hoA]
    show (1:ℝ) * ((calculateActualScore 1 2 + (calculateActualScore 1 3 + 0)) / 2 -
      (calculateExpectedScore 1500 1500 + (calculateExpectedScore 1500 1500 + 0)) / 2) = 1/2
    rw [actualScore_of_lt (by norm_num), actualScore_of_lt (by norm_num), hE]
    norm_num
  have hrB : eloRawChange [⟨"a", 1, 1500⟩, ⟨"b", 2, 1500⟩, ⟨"c", 3, 1500⟩]
      ⟨1, 1000⟩ ⟨"b", 2, 1500⟩ = 0 := by
    unfold eloRawChange totalActualScore totalExpectedScore totalOpponents
    rw [hoB]
    show (1:ℝ) * ((calculateActualScore 2 1 + (calculateActualScore 2 3 + 0)) / 2 -
      (calculateExpectedScore 1500 1500 + (calculateExpectedScore 1500 1500 + 0)) / 2) = 0
    rw [actualScore_of_gt (by norm_num), actualScore_of_lt (by norm_num), hE]
    norm_num
  have hrC : eloRawChange [⟨"a", 1, 1500⟩, ⟨"b", 2, 1500⟩, ⟨"c", 3, 1500⟩]
      ⟨1, 1000⟩ ⟨"c", 3, 1500⟩ = -(1/2) := by
    unfold eloRawChange totalActualScore totalExpectedScore totalOpponents
    rw [hoC]
    show (1:ℝ) * ((calculateActualScore 3 1 + (calculateActualScore 3 2 + 0)) / 2 -
      (calculateExpectedScore 1500 1500 + (calculateExpectedScore 1500 1500 + 0)) / 2) = -(1/2)
    rw [actualScore_of_gt (by norm_num), actualScore_of_gt (by norm_num), hE]
    norm_num
  have htoA : totalOpponents [⟨"a", 1, 1500⟩, ⟨"b", 2, 1500⟩, ⟨"c", 3, 1500⟩]
      ⟨"a", 1, 1500⟩ = 2 := by
    unfold totalOpponents
    rw [hoA]
    rfl
  have htoB : totalOpponents [⟨"a", 1, 1500⟩, ⟨"b", 2, 1500⟩, ⟨"c", 3, 1500⟩]
      ⟨"b", 2, 1500⟩ = 2 := by
    unfold totalOpponents
    rw [hoB]
    rfl
  have htoC : totalOpponents [⟨"a", 1, 1500⟩, ⟨"b", 2, 1500⟩, ⟨"c", 3, 1500⟩]
      ⟨"c", 3, 1500⟩ = 2 := by
    unfold totalOpponents
    rw [hoC]
    rfl
  constructor
  · unfold calculateMultiPlayerElo
    simp only [List.map_cons, List.map_nil, List.sum_cons, List.sum_nil]
    rw [if_neg (by simp [htoA]), if_neg (by simp [htoB]), if_neg (by simp [htoC])]
    show mathRound (eloRawChange _ _ _) + (mathRound (eloRawChange _ _ _) +
      (mathRound (eloRawChange _ _ _) + 0)) = (1:ℝ)
    rw [hrA, hrB, hrC, mathRound_zero,
      mathRound_eq (1/2 : ℝ) 1 (by norm_num) (by norm_num),
      mathRound_eq (-(1/2) : ℝ) 0 (by norm_num) (by norm_num)]
    norm_num
  · norm_num

/-- C8: the validator's isValid is true exactly when its error list is empty,
and each of the six independent checks contributes its error message to the
list exactly when that check fails — errors accumulate instead of the
function stopping at the first failure. -/
theorem claim_C8_thm (rs : List VEntry) :
    ((validateMatchResults rs).isValid = true ↔ (validateMatchResults rs).errors = []) ∧
    (msgMinPlayers ∈ (validateMatchResults rs).errors ↔ chkMinPlayers rs = true) ∧
    (msgDupName ∈ (validateMatchResults rs).errors ↔ chkDupName rs = true) ∧
    (msgEmptyName ∈ (validateMatchResults rs).errors ↔ chkEmptyName rs = true) ∧
    (msgRange ∈ (validateMatchResults rs).errors ↔ chkRange rs = true) ∧
    (msgStartOne ∈ (validateMatchResults rs).errors ↔ chkStartOne rs = true) ∧
    (msgContig ∈ (validateMatchResults rs).errors ↔ chkContig rs = true) := by
  unfold validateMatchResults
  cases h1 : chkMinPlayers rs <;> cases h2 : chkDupName rs <;>
    cases h3 : chkEmptyName rs <;> cases h4 : chkRange rs <;>
    cases h5 : chkStartOne rs <;> cases h6 : chkContig rs <;>
    simp [msgMinPlayers, msgDupName, msgEmptyName, msgRange, msgStartOne, msgContig]

/-- C9 (amended): for any three entries whose names are pairwise distinct
after trimming AND case-folding (the validator compares
`trim().toLowerCase()`) and non-empty after trimming, positions [1,1,3] are
accepted with an empty error list while positions [1,2,4] are rejected with
the non-contiguous-ranks error (alongside the range error for 4 > 3). -/
theorem claim_C9_thm (n1 n2 n3 : String)
    (h12 : jsToLower (jsTrim n1) ≠ jsToLower (jsTrim n2))
    (h13 : jsToLower (jsTrim n1) ≠ jsToLower (jsTrim n3))
    (h23 : jsToLower (jsTrim n2) ≠ jsToLower (jsTrim n3))
    (e1 : jsTrim n1 ≠ "") (e2 : jsTrim n2 ≠ "") (e3 : jsTrim n3 ≠ "") :
    validateMatchResults [⟨n1, 1⟩, ⟨n2, 1⟩, ⟨n3, 3⟩] = ⟨true, []⟩ ∧
    (validateMatchResults [⟨n1, 1⟩, ⟨n2, 2⟩, ⟨n3, 4⟩]).isValid = false ∧
    msgContig ∈ (validateMatchResults [⟨n1, 1⟩, ⟨n2, 2⟩, ⟨n3, 4⟩]).errors := by
  have c2 : ∀ a b c : ℤ, chkDupName [⟨n1, a⟩, ⟨n2, b⟩, ⟨n3, c⟩] = false := by
    intro a b c
    simp [chkDupName, normNames, List.nodup_cons, h12, h13, h23]
  have c3 : ∀ a b c : ℤ, chkEmptyName [⟨n1, a⟩, ⟨n2, b⟩, ⟨n3, c⟩] = false := by
    intro a b c
    simp [chkEmptyName, List.filter_cons, e1, e2, e3]
  refine ⟨?_, ?_, ?_⟩
  · have hv : validateMatchResults [⟨n1, 1⟩, ⟨n2, 1⟩, ⟨n3, 3⟩] =
        ⟨true, []⟩ := by
      unfold validateMatchResults
      rw [c2, c3]
      rfl
    exact hv
  · unfold validateMatchResults
    rw [c2, c3]
    rfl
  · unfold validateMatchResults
    rw [c2, c3]
    show msgContig ∈ [msgRange, msgContig]
    simp

/-- C9 counterexample: the names "A", "a", "b" are pairwise distinct and
non-empty after trimming, yet with positions [1,1,3] the validator rejects the
input, because it compares names after case-folding and flags "A"/"a" as
duplicates. -/
theorem claim_C9_cex :
    (jsTrim "A" ≠ jsTrim "a" ∧
     jsTrim "A" ≠ jsTrim "b" ∧
     jsTrim "a" ≠ jsTrim "b" ∧
     jsTrim "A" ≠ "" ∧ jsTrim "a" ≠ "" ∧
     jsTrim "b" ≠ "") ∧
    (validateMatchResults [⟨"A", 1⟩, ⟨"a", 1⟩, ⟨"b", 3⟩]).isValid = false ∧
    msgDupName ∈ (validateMatchResults [⟨"A", 1⟩, ⟨"a", 1⟩, ⟨"b", 3⟩]).errors := by
  refine ⟨⟨?_, ?_, ?_, ?_, ?_, ?_⟩, ?_, ?_⟩ <;> decide

/-! ### Witnesses: each claim theorem with hypotheses applied at a concrete input -/

theorem claim_C1_wit :
    ((([⟨"a", 1, 1200⟩, ⟨"b", 2, 1000⟩] : List MatchParticipant).map
        MatchParticipant.playerId).Nodup ∧
      2 ≤ ([⟨"a", 1, 1200⟩, ⟨"b", 2, 1000⟩] : List MatchParticipant).length ∧
      (∀ p ∈ ([⟨"a", 1, 1200⟩, ⟨"b", 2, 1000⟩] : List MatchParticipant),
        ∃ m : ℤ, p.currentRating = (m : ℝ))) ∧
    ∀ r ∈ calculateMultiPlayerElo [⟨"a", 1, 1200⟩, ⟨"b", 2, 1000⟩] ⟨32, 1000⟩,
      r.newRating = max 0 (r.previousRating + r.ratingChange) := by
  have hnd : (([⟨"a", 1, 1200⟩, ⟨"b", 2, 1000⟩] : List MatchParticipant).map
      MatchParticipant.playerId).Nodup := by decide
  have hlen : 2 ≤ ([⟨"a", 1, 1200⟩, ⟨"b", 2, 1000⟩] : List MatchParticipant).length := by
    decide
  have hint : ∀ p ∈ ([⟨"a", 1, 1200⟩, ⟨"b", 2, 1000⟩] : List MatchParticipant),
      ∃ m : ℤ, p.currentRating = (m : ℝ) := by
    intro p hp
    rcases List.mem_cons.mp hp with rfl | hp2
    · exact ⟨1200, by norm_num⟩
    rcases List.mem_cons.mp hp2 with rfl | hp3
    · exact ⟨1000, by norm_num⟩
    cases hp3
  exact ⟨⟨hnd, hlen, hint⟩, claim_C1_thm _ _ hnd hlen hint⟩

theorem claim_C2_wit :
    ((([⟨"x", 1, 1000⟩, ⟨"y", 1, 1000⟩] : List MatchParticipant).map
        MatchParticipant.playerId).Nodup ∧
      (∀ q ∈ ([⟨"x", 1, 1000⟩, ⟨"y", 1, 1000⟩] : List MatchParticipant),
        ∀ r ∈ ([⟨"x", 1, 1000⟩, ⟨"y", 1, 1000⟩] : List MatchParticipant),
          q.position = r.position) ∧
      (∀ q ∈ ([⟨"x", 1, 1000⟩, ⟨"y", 1, 1000⟩] : List MatchParticipant),
        ∀ r ∈ ([⟨"x", 1, 1000⟩, ⟨"y", 1, 1000⟩] : List MatchParticipant),
          q.currentRating = r.currentRating)) ∧
    ∀ r ∈ calculateMultiPlayerElo [⟨"x", 1, 1000⟩, ⟨"y", 1, 1000⟩] ⟨24, 1000⟩,
      r.ratingChange = 0 := by
  have hnd : (([⟨"x", 1, 1000⟩, ⟨"y", 1, 1000⟩] : List MatchParticipant).map
      MatchParticipant.playerId).Nodup := by decide
  have hpos : ∀ q ∈ ([⟨"x", 1, 1000⟩, ⟨"y", 1, 1000⟩] : List MatchParticipant),
      ∀ r ∈ ([⟨"x", 1, 1000⟩, ⟨"y", 1, 1000⟩] : List MatchParticipant),
        q.position = r.position := by
    intro q hq r hr
    rcases List.mem_cons.mp hq with rfl | hq2 <;>
      [skip; rcases List.mem_cons.mp hq2 with rfl | hq3] <;>
      first
      | (rcases List.mem_cons.mp hr with rfl | hr2 <;>
          [rfl; rcases List.mem_cons.mp hr2 with rfl | hr3] <;>
          first | rfl | cases hr3)
      | cases hq3
  have hrat : ∀ q ∈ ([⟨"x", 1, 1000⟩, ⟨"y", 1, 1000⟩] : List MatchParticipant),
      ∀ r ∈ ([⟨"x", 1, 1000⟩, ⟨"y", 1, 1000⟩] : List MatchParticipant),
        q.currentRating = r.currentRating := by
    intro q hq r hr
    rcases List.mem_cons.mp hq with rfl | hq2 <;>
      [skip; rcases List.mem_cons.mp hq2 with rfl | hq3] <;>
      first
      | (rcases List.mem_cons.mp hr with rfl | hr2 <;>
          [rfl; rcases List.mem_cons.mp hr2 with rfl | hr3] <;>
          first | rfl | cases hr3)
      | cases hq3
  exact ⟨⟨hnd, hpos, hrat⟩, claim_C2_thm _ _ hnd hpos hrat⟩

theorem claim_C3_wit :
    ((([⟨"x", 1, 1000⟩, ⟨"y", 2, 1000⟩] : List MatchParticipant).map
        MatchParticipant.playerId).Nodup ∧
      2 ≤ ([⟨"x", 1, 1000⟩, ⟨"y", 2, 1000⟩] : List MatchParticipant).length ∧
      (∀ q ∈ ([⟨"x", 1, 1000⟩, ⟨"y", 2, 1000⟩] : List MatchParticipant),
        ∀ r ∈ ([⟨"x", 1, 1000⟩, ⟨"y", 2, 1000⟩] : List MatchParticipant),
          q.currentRating = r.currentRating)) ∧
    (([⟨"x", 1, 1000⟩, ⟨"y", 2, 1000⟩] : List MatchParticipant).map
      (fun p => eloRawChange [⟨"x", 1, 1000⟩, ⟨"y", 2, 1000⟩] ⟨32, 1000⟩ p)).sum = 0 := by
  have hnd : (([⟨"x", 1, 1000⟩, ⟨"y", 2, 1000⟩] : List MatchParticipant).map
      MatchParticipant.playerId).Nodup := by decide
  have hlen : 2 ≤ ([⟨"x", 1, 1000⟩, ⟨"y", 2, 1000⟩] : List MatchParticipant).length := by
    decide
  have hrat : ∀ q ∈ ([⟨"x", 1, 1000⟩, ⟨"y", 2, 1000⟩] : List MatchParticipant),
      ∀ r ∈ ([⟨"x", 1, 1000⟩, ⟨"y", 2, 1000⟩] : List MatchParticipant),
        q.currentRating = r.currentRating := by
    intro q hq r hr
    rcases List.mem_cons.mp hq with rfl | hq2 <;>
      [skip; rcases List.mem_cons.mp hq2 with rfl | hq3] <;>
      first
      | (rcases List.mem_cons.mp hr with rfl | hr2 <;>
          [rfl; rcases List.mem_cons.mp hr2 with rfl | hr3] <;>
          first | rfl | cases hr3)
      | cases hq3
  exact ⟨⟨hnd, hlen, hrat⟩, claim_C3_thm _ _ hnd hlen hrat⟩

theorem claim_C4_wit :
    ((⟨"a", 1, 1500⟩ : MatchParticipant).playerId ≠
      (⟨"b", 2, 1400⟩ : MatchParticipant).playerId) ∧
    (eloRawChange [⟨"a", 1, 1500⟩, ⟨"b", 2, 1400⟩] ⟨32, 1000⟩ ⟨"b", 2, 1400⟩ =
      -(eloRawChange [⟨"a", 1, 1500⟩, ⟨"b", 2, 1400⟩] ⟨32, 1000⟩ ⟨"a", 1, 1500⟩) ∧
     |(((calculateMultiPlayerElo [⟨"a", 1, 1500⟩, ⟨"b", 2, 1400⟩] ⟨32, 1000⟩).map
        EloCalculationResult.ratingChange).sum)| ≤ 1) := by
  have h : (⟨"a", 1, 1500⟩ : MatchParticipant).playerId ≠
      (⟨"b", 2, 1400⟩ : MatchParticipant).playerId := by decide
  exact ⟨h, claim_C4_thm _ _ _ h⟩

theorem claim_C5_wit :
    ((([⟨"u", 1, 0⟩, ⟨"v", 2, 0⟩] : List MatchParticipant).map
        MatchParticipant.playerId).Nodup ∧
      2 ≤ ([⟨"u", 1, 0⟩, ⟨"v", 2, 0⟩] : List MatchParticipant).length) ∧
    ∀ r ∈ calculateMultiPlayerElo [⟨"u", 1, 0⟩, ⟨"v", 2, 0⟩] ⟨40, 1000⟩,
      0 ≤ r.newRating := by
  have hnd : (([⟨"u", 1, 0⟩, ⟨"v", 2, 0⟩] : List MatchParticipant).map
      MatchParticipant.playerId).Nodup := by decide
  have hlen : 2 ≤ ([⟨"u", 1, 0⟩, ⟨"v", 2, 0⟩] : List MatchParticipant).length := by decide
  exact ⟨⟨hnd, hlen⟩, claim_C5_thm _ _ hnd hlen⟩

theorem claim_C9_wit :
    (jsToLower (jsTrim "Ann") ≠ jsToLower (jsTrim "bob") ∧
     jsToLower (jsTrim "Ann") ≠ jsToLower (jsTrim "Cy") ∧
     jsToLower (jsTrim "bob") ≠ jsToLower (jsTrim "Cy") ∧
     jsTrim "Ann" ≠ "" ∧ jsTrim "bob" ≠ "" ∧ jsTrim "Cy" ≠ "") ∧
    (validateMatchResults [⟨"Ann", 1⟩, ⟨"bob", 1⟩, ⟨"Cy", 3⟩] = ⟨true, []⟩ ∧
     (validateMatchResults [⟨"Ann", 1⟩, ⟨"bob", 2⟩, ⟨"Cy", 4⟩]).isValid = false ∧
     msgContig ∈ (validateMatchResults [⟨"Ann", 1⟩, ⟨"bob", 2⟩, ⟨"Cy", 4⟩]).errors) := by
  have h12 : jsToLower (jsTrim "Ann") ≠ jsToLower (jsTrim "bob") := by decide
  have h13 : jsToLower (jsTrim "Ann") ≠ jsToLower (jsTrim "Cy") := by decide
  have h23 : jsToLower (jsTrim "bob") ≠ jsToLower (jsTrim "Cy") := by decide
  have e1 : jsTrim "Ann" ≠ "" := by decide
  have e2 : jsTrim "bob" ≠ "" := by decide
  have e3 : jsTrim "Cy" ≠ "" := by decide
  exact ⟨⟨h12, h13, h23, e1, e2, e3⟩,
    claim_C9_thm "Ann" "bob" "Cy" h12 h13 h23 e1 e2 e3⟩

end Yunqi
